import Mathlib

/-!
Verification of the authentication core and user CRUD endpoints of the
repository (src/auth.py and src/main.py), as a shallow embedding in Lean.

Conventions of the embedding:
* Python `Dict[str, Any]` claim mappings become ordered association lists
  over a small value type (`JValue`); `dict.get` / item assignment /
  `dict.update` become `dictGet` / `dictSet` / `dictUpdate`.
* Instants and `timedelta` values are integers (seconds).
* A signed JWT (`jwt.encode`) is the payload together with the signing key
  and algorithm; signature checking (`jwt.decode`) is agreement of key and
  algorithm.
* The process environment read at module import is an explicit `AuthEnv`
  argument; randomness (the bcrypt salt) is an explicit `salt` argument.
* Functions that mutate a caller-visible Python object return the
  post-call value of that object explicitly (for example the token
  creators return the caller's claims mapping after the call).
* Raised exceptions become `Except` error values.
-/

/-- Claim values occurring in token payloads of this program: strings and
integers (the restriction of Python `Any` to what the code stores). -/
inductive JValue where
  | str : String → JValue
  | int : Int → JValue
  deriving DecidableEq, Repr

/-- A Python dict with string keys, as an ordered association list whose
keys are pairwise distinct for dicts built by dict operations; lookup
returns the first binding. -/
abbrev Dict := List (String × JValue)

/-- Python `d.get(key)`: the first binding of `key`, if any. -/
def dictGet : Dict → String → Option JValue
  | [], _ => none
  | (k, v) :: rest, key => if k = key then some v else dictGet rest key

/-- Python `d[key] = val`: replace the binding of `key` in place, or append
a new binding when `key` is absent. -/
def dictSet : Dict → String → JValue → Dict
  | [], key, val => [(key, val)]
  | (k, v) :: rest, key, val =>
    if k = key then (key, val) :: rest else (k, v) :: dictSet rest key val

/-- Python `d.update(kvs)`: set every binding of `kvs` in order. -/
def dictUpdate (d : Dict) (kvs : Dict) : Dict :=
  kvs.foldl (fun acc kv => dictSet acc kv.1 kv.2) d

theorem dictGet_dictSet_self (d : Dict) (k : String) (v : JValue) :
    dictGet (dictSet d k v) k = some v := by
  induction d with
  | nil => simp [dictSet, dictGet]
  | cons hd tl ih =>
    obtain ⟨k0, v0⟩ := hd
    by_cases h : k0 = k
    · simp [dictSet, dictGet, h]
    · simp [dictSet, dictGet, h, ih]

theorem dictGet_dictSet_ne (d : Dict) (k key : String) (v : JValue) (h : key ≠ k) :
    dictGet (dictSet d k v) key = dictGet d key := by
  induction d with
  | nil => simp [dictSet, dictGet, Ne.symm h]
  | cons hd tl ih =>
    obtain ⟨k0, v0⟩ := hd
    by_cases h0 : k0 = k
    · subst h0
      simp [dictSet, dictGet, Ne.symm h]
    · simp [dictSet, dictGet, h0, ih]

theorem dictGet_eq_none_iff (d : Dict) (k : String) :
    dictGet d k = none ↔ ∀ kv ∈ d, kv.1 ≠ k := by
  induction d with
  | nil => simp [dictGet]
  | cons hd tl ih =>
    obtain ⟨k0, v0⟩ := hd
    by_cases h : k0 = k
    · simp [dictGet, h]
    · simp [dictGet, h, ih]

theorem dictGet_dictUpdate_not_mem (d : Dict) (kvs : Dict) (k : String)
    (h : ∀ kv ∈ kvs, kv.1 ≠ k) :
    dictGet (dictUpdate d kvs) k = dictGet d k := by
  induction kvs generalizing d with
  | nil => rfl
  | cons hd tl ih =>
    obtain ⟨k0, v0⟩ := hd
    have hne : k ≠ k0 := fun he => (h (k0, v0) (by simp)) he.symm
    have htl : ∀ kv ∈ tl, kv.1 ≠ k := fun kv hm => h kv (by simp [hm])
    simp only [dictUpdate, List.foldl_cons]
    rw [show (tl.foldl (fun acc kv => dictSet acc kv.1 kv.2) (dictSet d k0 v0)) =
          dictUpdate (dictSet d k0 v0) tl from rfl,
        ih (dictSet d k0 v0) htl, dictGet_dictSet_ne d k0 k v0 hne]

theorem dictGet_dictUpdate_mem (d : Dict) (kvs : Dict) (k : String) (v : JValue)
    (hnd : (kvs.map (fun kv => kv.1)).Nodup) (hget : dictGet kvs k = some v) :
    dictGet (dictUpdate d kvs) k = some v := by
  induction kvs generalizing d with
  | nil => simp [dictGet] at hget
  | cons hd tl ih =>
    obtain ⟨k0, v0⟩ := hd
    simp only [List.map_cons, List.nodup_cons] at hnd
    by_cases h : k0 = k
    · subst h
      simp [dictGet] at hget
      have htl : ∀ kv ∈ tl, kv.1 ≠ k0 := by
        intro kv hm he
        exact hnd.1 (by rw [← he]; exact List.mem_map_of_mem (fun kv => kv.1) hm)
      simp only [dictUpdate, List.foldl_cons]
      rw [show (tl.foldl (fun acc kv => dictSet acc kv.1 kv.2) (dictSet d k0 v0)) =
            dictUpdate (dictSet d k0 v0) tl from rfl,
          dictGet_dictUpdate_not_mem _ tl k0 htl, dictGet_dictSet_self]
      exact congrArg some hget
    · simp only [dictGet, if_neg h] at hget
      simp only [dictUpdate, List.foldl_cons]
      exact ih (dictSet d k0 v0) hnd.2 hget

/-- A signed JWT as produced by `jwt.encode(payload, key, algorithm)`: the
claims payload together with the key and algorithm that signed it.  The
signature is determined by (payload, key, algorithm), so it is represented
by those fields. -/
structure Jwt where
  payload : Dict
  key : String
  alg : String
  deriving DecidableEq, Repr

/-- `jwt.encode(payload, key, algorithm=alg)`. -/
def jwtEncode (payload : Dict) (key : String) (alg : String) : Jwt :=
  ⟨payload, key, alg⟩

/-- Outcome of `jwt.decode`: the payload, or `ExpiredSignatureError`, or a
generic `InvalidTokenError` (pyjwt) / `JWTError` (jose) for signature and
format failures. -/
inductive DecodeResult where
  | ok : Dict → DecodeResult
  | expired : DecodeResult
  | invalid : DecodeResult
  deriving DecidableEq, Repr

/-- Model of `jwt.decode(token, key, algorithms=algs)` at instant `now`:
a key or algorithm mismatch is a signature failure; an integer `exp` claim
at or before `now` is an expiry failure; a non-integer `exp` is a format
failure; a payload without `exp` is accepted. -/
def jwtDecode (t : Jwt) (key : String) (algs : List String) (now : Int) : DecodeResult :=
  if t.key = key ∧ t.alg ∈ algs then
    match dictGet t.payload "exp" with
    | some (JValue.int e) => if e ≤ now then DecodeResult.expired else DecodeResult.ok t.payload
    | some (JValue.str _) => DecodeResult.invalid
    | none => DecodeResult.ok t.payload
  else DecodeResult.invalid

/-- The process environment variables read by src/auth.py at import time
(lines 22-25); `none` means the variable is unset. -/
structure AuthEnv where
  secretKey : Option String
  accessTokenExpireMinutes : Option Int
  refreshTokenExpireDays : Option Int
  deriving DecidableEq, Repr

/-- auth.py line 22:
`SECRET_KEY = os.getenv("SECRET_KEY", "your-secret-key-change-in-production")`. -/
def SECRET_KEY (env : AuthEnv) : String :=
  env.secretKey.getD "your-secret-key-change-in-production"

/-- auth.py line 23. -/
def ALGORITHM : String := "HS256"

/-- auth.py line 24 (the `int(...)` parse of the variable is elided: the
environment holds the parsed integer). -/
def ACCESS_TOKEN_EXPIRE_MINUTES (env : AuthEnv) : Int :=
  env.accessTokenExpireMinutes.getD 30

/-- auth.py line 25. -/
def REFRESH_TOKEN_EXPIRE_DAYS (env : AuthEnv) : Int :=
  env.refreshTokenExpireDays.getD 7

/-- auth.py lines 78-108, `TokenManager.create_access_token`: copies the
caller's claims (`to_encode = data.copy()`), picks the expiry from
`expires_delta` when that is truthy (a nonzero timedelta) and from the
configured access lifetime otherwise, merges `exp` and `type = "access"`
into the copy and signs it.  The second component of the result is the
caller's mapping `data` as observable after the call: the code only ever
mutates the copy, so it is returned unchanged. -/
def TokenManager.create_access_token (env : AuthEnv) (data : Dict)
    (expires_delta : Option Int) (now : Int) : Jwt × Dict :=
  let expire : Int :=
    match expires_delta with
    | some dt => if dt ≠ 0 then now + dt else now + ACCESS_TOKEN_EXPIRE_MINUTES env * 60
    | none => now + ACCESS_TOKEN_EXPIRE_MINUTES env * 60
  let to_encode := dictUpdate data [("exp", JValue.int expire), ("type", JValue.str "access")]
  (jwtEncode to_encode (SECRET_KEY env) ALGORITHM, data)

/-- auth.py lines 110-132, `TokenManager.create_refresh_token`: same
mechanics with `type = "refresh"` and the configured refresh lifetime in
days; no caller-supplied override.  Second component as in
`TokenManager.create_access_token`. -/
def TokenManager.create_refresh_token (env : AuthEnv) (data : Dict) (now : Int) : Jwt × Dict :=
  let expire : Int := now + REFRESH_TOKEN_EXPIRE_DAYS env * 86400
  let to_encode := dictUpdate data [("exp", JValue.int expire), ("type", JValue.str "refresh")]
  (jwtEncode to_encode (SECRET_KEY env) ALGORITHM, data)

/-- The five distinct `HTTPException` detail messages constructed by
`TokenManager.verify_token` (auth.py lines 134-192). -/
inductive Detail where
  | tokenExpired
  | invalidTokenType (expected : String)
  | missingUserIdentifier
  | invalidToken
  | couldNotValidate
  deriving DecidableEq, Repr

/-- The exceptions that can leave the `try` block of
`TokenManager.verify_token` (auth.py lines 149-170): the two pyjwt decode
failures, or an `HTTPException` raised by the type and subject checks
inside the block. -/
inductive TryExc where
  | expiredSig
  | invalidTok
  | httpExc (d : Detail)
  deriving DecidableEq, Repr

/-- The `try` block of `TokenManager.verify_token` (auth.py lines 149-170):
decode, then raise an `HTTPException` on a type mismatch
(`payload.get("type") != token_type`) or a missing `sub` claim
(`payload.get("sub") is None`), else return the payload. -/
def TokenManager.verify_token_body (env : AuthEnv) (token : Jwt) (token_type : String)
    (now : Int) : Except TryExc Dict :=
  match jwtDecode token (SECRET_KEY env) [ALGORITHM] now with
  | DecodeResult.expired => Except.error TryExc.expiredSig
  | DecodeResult.invalid => Except.error TryExc.invalidTok
  | DecodeResult.ok payload =>
    if dictGet payload "type" ≠ some (JValue.str token_type) then
      Except.error (TryExc.httpExc (Detail.invalidTokenType token_type))
    else
      match dictGet payload "sub" with
      | none => Except.error (TryExc.httpExc Detail.missingUserIdentifier)
      | some _ => Except.ok payload

/-- auth.py lines 134-192, `TokenManager.verify_token`: the `try` block
followed by its exception handlers.  `except ExpiredSignatureError` maps
to the "Token has expired" detail and `except InvalidTokenError` to
"Invalid token"; every other exception — including the `HTTPException`
values raised by the type and subject checks inside the `try` block —
is caught by `except Exception` and replaced with a new `HTTPException`
whose detail is "Could not validate credentials". -/
def TokenManager.verify_token (env : AuthEnv) (token : Jwt) (token_type : String)
    (now : Int) : Except Detail Dict :=
  match TokenManager.verify_token_body env token token_type now with
  | Except.ok payload => Except.ok payload
  | Except.error TryExc.expiredSig => Except.error Detail.tokenExpired
  | Except.error TryExc.invalidTok => Except.error Detail.invalidToken
  | Except.error (TryExc.httpExc _) => Except.error Detail.couldNotValidate

/-- auth.py lines 237-259, `create_token_response`: build
`claims = {"sub": user_id}`, merge the additional claims when supplied
(and truthy, that is a nonempty dict), and return the dict literal with
the three keys `access_token`, `refresh_token`, `token_type`. -/
structure TokenResponse where
  access_token : Jwt
  refresh_token : Jwt
  token_type : String
  deriving DecidableEq, Repr

def create_token_response (env : AuthEnv) (user_id : String)
    (additional_claims : Option Dict) (now : Int) : TokenResponse :=
  let claims : Dict := [("sub", JValue.str user_id)]
  let claims :=
    match additional_claims with
    | some d => if d ≠ [] then dictUpdate claims d else claims
    | none => claims
  { access_token := (TokenManager.create_access_token env claims none now).1
    refresh_token := (TokenManager.create_refresh_token env claims now).1
    token_type := "bearer" }

/-- Helper: whether an `Except` result is a success (a raised exception is
an `error` value). -/
def isOkE : Except ε α → Bool
  | Except.ok _ => true
  | Except.error _ => false

/-- A stored password hash string as consumed by `pwd_context.verify`.
Model of the external passlib bcrypt primitive: a well-formed hash string
embeds the salt of the call that created it and commits to the password it
digested (an ideal injective one-way digest); every other string is a hash
that passlib cannot identify. -/
inductive PHash where
  | valid (salt : Nat) (password : String)
  | malformed (s : String)
  deriving DecidableEq, Repr

/-- Model of `pwd_context.verify(plain, hashed)` (external passlib): raises
(`Except.error`) on a hash it cannot identify, otherwise recomputes the
digest of `plain` with the embedded salt and compares. -/
def pwd_context_verify (plain : String) (hashed : PHash) : Except String Bool :=
  match hashed with
  | PHash.valid _ password => Except.ok (plain == password)
  | PHash.malformed _ => Except.error "hash could not be identified"

/-- auth.py lines 41-54, `PasswordManager.hash_password`: raise
`ValueError` when the password is falsy (empty) or shorter than 8
characters, else hash it with `pwd_context.hash` (external passlib bcrypt,
fresh `salt`; a password longer than 72 UTF-8 bytes is accepted — passlib
truncates silently, it does not raise). -/
def PasswordManager.hash_password (salt : Nat) (password : String) : Except String PHash :=
  if password = "" ∨ password.length < 8 then
    Except.error "Password must be at least 8 characters long"
  else
    Except.ok (PHash.valid salt password)

/-- auth.py lines 56-72, `PasswordManager.verify_password`: delegate to
`pwd_context.verify` inside `try`, and return `False` from
`except Exception` after logging. -/
def PasswordManager.verify_password (plain_password : String) (hashed_password : PHash) : Bool :=
  match pwd_context_verify plain_password hashed_password with
  | Except.ok b => b
  | Except.error _ => false

/-- UTF-8 byte length of a string, as computed by `len(s.encode("utf-8"))`. -/
def utf8ByteLen (s : String) : Nat :=
  s.data.foldl (fun n c => n + c.utf8Size) 0

/-- An `HTTPException(status_code, detail)` raised by src/main.py. -/
structure HttpError where
  status : Nat
  detail : String
  deriving DecidableEq, Repr

/-- main.py line 44: the module-level signing secret, hardcoded (the
environment is not consulted). -/
def Main.SECRET_KEY : String := "your-secret-key-change-this-in-production"

/-- main.py line 45. -/
def Main.ALGORITHM : String := "HS256"

/-- main.py line 46. -/
def Main.ACCESS_TOKEN_EXPIRE_MINUTES : Int := 30

/-- main.py lines 137-145, `hash_password`: raise a 400 `HTTPException`
when the UTF-8 encoding of the password exceeds 72 bytes, else hash with
`pwd_context.hash` (no minimum-length check). -/
def Main.hash_password (salt : Nat) (password : String) : Except HttpError PHash :=
  if utf8ByteLen password > 72 then
    Except.error ⟨400, "Password too long (max 72 characters)"⟩
  else
    Except.ok (PHash.valid salt password)

/-- main.py lines 147-149, `verify_password`: bare delegation to
`pwd_context.verify`, with no exception handling — a malformed stored
hash propagates the error to the caller. -/
def Main.verify_password (plain_password : String) (hashed_password : PHash) : Except String Bool :=
  pwd_context_verify plain_password hashed_password

/-- main.py lines 151-160, `create_access_token`: copy the claims, pick the
expiry from a truthy `expires_delta` or default to 15 minutes, merge only
`exp` (no `type` claim) into the copy and sign with the module secret.
Second component: the caller's mapping after the call (the code mutates
only the copy). -/
def Main.create_access_token (data : Dict) (expires_delta : Option Int) (now : Int) :
    Jwt × Dict :=
  let expire : Int :=
    match expires_delta with
    | some dt => if dt ≠ 0 then now + dt else now + 15 * 60
    | none => now + 15 * 60
  let to_encode := dictUpdate data [("exp", JValue.int expire)]
  (jwtEncode to_encode Main.SECRET_KEY Main.ALGORITHM, data)

/-- C1 (code bug): a token issued by `create_access_token` and checked with
`verify_token(..., "refresh")` does hit the type-mismatch check, which
raises the distinct detail "Invalid token type. Expected 'refresh'" inside
the `try` block — but that `HTTPException` is caught by the function's own
`except Exception` handler and replaced by the generic "Could not validate
credentials" detail, so the caller cannot see the type-mismatch condition
(nor distinguish it from a missing subject or any internal error). -/
theorem c1_type_mismatch_collapsed_to_generic :
    TokenManager.verify_token_body ⟨none, none, none⟩
        (TokenManager.create_access_token ⟨none, none, none⟩ [("sub", JValue.str "u1")] none 0).1
        "refresh" 0
      = Except.error (TryExc.httpExc (Detail.invalidTokenType "refresh"))
    ∧ TokenManager.verify_token ⟨none, none, none⟩
        (TokenManager.create_access_token ⟨none, none, none⟩ [("sub", JValue.str "u1")] none 0).1
        "refresh" 0
      = Except.error Detail.couldNotValidate
    ∧ Detail.couldNotValidate ≠ Detail.invalidTokenType "refresh"
    ∧ Detail.couldNotValidate ≠ Detail.invalidToken := by
  refine ⟨rfl, rfl, by decide, by decide⟩

/-- C2 (counterexample): with the SECRET_KEY environment variable unset,
configuration loading yields exactly the fixed, publicly known default
string baked into auth.py line 22 — it does fall back to a known value. -/
theorem c2_secret_key_default_counterexample :
    SECRET_KEY ⟨none, none, none⟩ = "your-secret-key-change-in-production" := rfl

/-- C2 (amended): when SECRET_KEY is unset, auth.py falls back to the fixed
default "your-secret-key-change-in-production"; when it is set, that value
is used; main.py never consults the environment and always uses the
hardcoded "your-secret-key-change-this-in-production". -/
theorem c2_secret_key_default_amended :
    SECRET_KEY ⟨none, none, none⟩ = "your-secret-key-change-in-production"
    ∧ (∀ s : String, ∀ m d : Option Int, SECRET_KEY ⟨some s, m, d⟩ = s)
    ∧ Main.SECRET_KEY = "your-secret-key-change-this-in-production" :=
  ⟨rfl, fun _ _ _ => rfl, rfl⟩

/-- C3 (counterexample): a 73-byte password is hashed, not rejected, by
auth.py's `PasswordManager.hash_password` (it has no 72-byte check), and a
5-character password is hashed, not rejected, by main.py's `hash_password`
(it has no minimum-length check); so neither function fails with a
validation error on all of the claimed inputs. -/
theorem c3_hash_password_validation_counterexample :
    utf8ByteLen (String.mk (List.replicate 73 'a')) = 73
    ∧ isOkE (PasswordManager.hash_password 0 (String.mk (List.replicate 73 'a'))) = true
    ∧ "short".length < 8
    ∧ isOkE (Main.hash_password 0 "short") = true := by
  refine ⟨by decide, by decide, by decide, by decide⟩

/-- C3 (amended): auth.py's `PasswordManager.hash_password` fails with a
validation error exactly when the password is empty or shorter than 8
characters, and otherwise returns a hash; main.py's `hash_password` fails
with a 400 client error exactly when the password exceeds 72 UTF-8 bytes,
and otherwise returns a hash; neither function performs the other's
check. -/
theorem c3_hash_password_validation_amended (salt : Nat) (password : String) :
    (isOkE (PasswordManager.hash_password salt password) = true
      ↔ ¬ (password = "" ∨ password.length < 8))
    ∧ ((password = "" ∨ password.length < 8) →
        PasswordManager.hash_password salt password
          = Except.error "Password must be at least 8 characters long")
    ∧ (isOkE (Main.hash_password salt password) = true ↔ utf8ByteLen password ≤ 72)
    ∧ (utf8ByteLen password > 72 →
        Main.hash_password salt password
          = Except.error ⟨400, "Password too long (max 72 characters)"⟩) := by
  refine ⟨?_, ?_, ?_, ?_⟩
  · by_cases h : password = "" ∨ password.length < 8 <;>
      simp [PasswordManager.hash_password, h, isOkE]
  · intro h; simp [PasswordManager.hash_password, h]
  · by_cases h : utf8ByteLen password > 72
    · simp [Main.hash_password, h, isOkE]
    · simp [Main.hash_password, h, isOkE]
      omega
  · intro h; simp [Main.hash_password, h]

/-- C3 (witness): at the concrete password "short" the amended claim is
exercised: auth.py rejects it with the validation error while main.py
hashes it. -/
theorem c3_hash_password_validation_witness :
    PasswordManager.hash_password 0 "short"
      = Except.error "Password must be at least 8 characters long"
    ∧ isOkE (Main.hash_password 0 "short") = true := by
  refine ⟨(c3_hash_password_validation_amended 0 "short").2.1 (by decide), ?_⟩
  exact (c3_hash_password_validation_amended 0 "short").2.2.1.mpr (by decide)

/-- C5: `PasswordManager.verify_password` is total — an error raised by the
underlying `pwd_context.verify` (for example on a malformed stored hash) is
caught and turned into `false` (fail closed), and the function returns
`true` exactly when the stored value is a well-formed hash whose digested
password equals the plaintext. -/
theorem c5_verify_password_fail_closed (plain : String) (h : PHash) :
    (isOkE (pwd_context_verify plain h) = false →
        PasswordManager.verify_password plain h = false)
    ∧ (∀ s, PasswordManager.verify_password plain (PHash.malformed s) = false)
    ∧ (PasswordManager.verify_password plain h = true
        ↔ ∃ salt password, h = PHash.valid salt password ∧ plain = password) := by
  refine ⟨?_, ?_, ?_⟩
  · cases h <;> simp [pwd_context_verify, PasswordManager.verify_password, isOkE]
  · intro s; simp [pwd_context_verify, PasswordManager.verify_password]
  · cases h with
    | valid salt pw =>
      simp only [pwd_context_verify, PasswordManager.verify_password, beq_iff_eq]
      constructor
      · intro he
        exact ⟨salt, pw, rfl, by simpa using he⟩
      · rintro ⟨s', p', heq, he⟩
        cases heq
        simpa using he
    | malformed s =>
      simp [pwd_context_verify, PasswordManager.verify_password]

/-- C5 (witness): on a garbage stored hash the underlying verifier raises
and `verify_password` returns false. -/
theorem c5_verify_password_fail_closed_witness :
    isOkE (pwd_context_verify "password123" (PHash.malformed "garbage")) = false
    ∧ PasswordManager.verify_password "password123" (PHash.malformed "garbage") = false := by
  refine ⟨by decide, ?_⟩
  exact (c5_verify_password_fail_closed "password123" (PHash.malformed "garbage")).1 (by decide)

/-- C7: the three token creators work on a copy of the caller's claims
mapping: after each call the caller's mapping holds exactly the entries it
held before, while the signed copy received the merged claims (`type` for
the auth.py creators, `exp` for main.py's, which merges no `type`). -/
theorem c7_claims_copy_semantics (env : AuthEnv) (data : Dict) (delta : Option Int) (now : Int) :
    ((TokenManager.create_access_token env data delta now).2 = data
      ∧ dictGet (TokenManager.create_access_token env data delta now).1.payload "type"
          = some (JValue.str "access"))
    ∧ ((TokenManager.create_refresh_token env data now).2 = data
      ∧ dictGet (TokenManager.create_refresh_token env data now).1.payload "type"
          = some (JValue.str "refresh"))
    ∧ ((Main.create_access_token data delta now).2 = data
      ∧ ∃ e, dictGet (Main.create_access_token data delta now).1.payload "exp"
          = some (JValue.int e)) := by
  refine ⟨⟨rfl, ?_⟩, ⟨rfl, ?_⟩, rfl, ?_⟩
  · simp only [TokenManager.create_access_token, jwtEncode, dictUpdate,
      List.foldl_cons, List.foldl_nil]
    exact dictGet_dictSet_self _ _ _
  · simp only [TokenManager.create_refresh_token, jwtEncode, dictUpdate,
      List.foldl_cons, List.foldl_nil]
    exact dictGet_dictSet_self _ _ _
  · refine ⟨?_, ?_⟩
    · exact match delta with
        | some dt => if dt ≠ 0 then now + dt else now + 15 * 60
        | none => now + 15 * 60
    · simp only [Main.create_access_token, jwtEncode, dictUpdate,
        List.foldl_cons, List.foldl_nil]
      exact dictGet_dictSet_self _ _ _

/-- Helper: a payload built by merging `exp = e` and `type = tystr` into a
claims dict `C` and signing it decodes successfully before `e`, carries the
type claim, and leaves every other claim of `C` visible. -/
theorem signed_payload_props (C : Dict) (key tystr : String) (e now : Int) (he : now < e) :
    jwtDecode (jwtEncode (dictSet (dictSet C "exp" (JValue.int e)) "type" (JValue.str tystr))
        key ALGORITHM) key [ALGORITHM] now
      = DecodeResult.ok (dictSet (dictSet C "exp" (JValue.int e)) "type" (JValue.str tystr))
    ∧ dictGet (dictSet (dictSet C "exp" (JValue.int e)) "type" (JValue.str tystr)) "type"
      = some (JValue.str tystr)
    ∧ ∀ k, k ≠ "exp" → k ≠ "type" →
        dictGet (dictSet (dictSet C "exp" (JValue.int e)) "type" (JValue.str tystr)) k
          = dictGet C k := by
  have hexp : dictGet (dictSet (dictSet C "exp" (JValue.int e)) "type" (JValue.str tystr)) "exp"
      = some (JValue.int e) := by
    rw [dictGet_dictSet_ne _ "type" "exp" _ (by decide), dictGet_dictSet_self]
  refine ⟨?_, dictGet_dictSet_self _ _ _, ?_⟩
  · unfold jwtDecode jwtEncode
    rw [if_pos ⟨rfl, by simp⟩]
    simp only [hexp]
    rw [if_neg (by omega)]
  · intro k hk1 hk2
    rw [dictGet_dictSet_ne _ "type" k _ hk2, dictGet_dictSet_ne _ "exp" k _ hk1]

/-- C4: for every claims mapping carrying `sub = "u1"`, verifying the
access token issued over it (issued at `t0` with the default lifetime,
verified at `t1` before expiry) succeeds and the returned payload still
carries `sub = "u1"`. -/
theorem c4_subject_roundtrip (env : AuthEnv) (d : Dict) (t0 t1 : Int)
    (hsub : dictGet d "sub" = some (JValue.str "u1"))
    (hbefore : t1 < t0 + ACCESS_TOKEN_EXPIRE_MINUTES env * 60) :
    ∃ payload,
      TokenManager.verify_token env
          (TokenManager.create_access_token env d none t0).1 "access" t1
        = Except.ok payload
      ∧ dictGet payload "sub" = some (JValue.str "u1") := by
  obtain ⟨hdec, htype, hother⟩ :=
    signed_payload_props d (SECRET_KEY env) "access"
      (t0 + ACCESS_TOKEN_EXPIRE_MINUTES env * 60) t1 hbefore
  have hsubP : dictGet (dictSet (dictSet d "exp"
      (JValue.int (t0 + ACCESS_TOKEN_EXPIRE_MINUTES env * 60))) "type"
      (JValue.str "access")) "sub" = some (JValue.str "u1") := by
    rw [hother "sub" (by decide) (by decide), hsub]
  refine ⟨_, ?_, hsubP⟩
  rw [show (TokenManager.create_access_token env d none t0).1
      = jwtEncode (dictSet (dictSet d "exp"
          (JValue.int (t0 + ACCESS_TOKEN_EXPIRE_MINUTES env * 60))) "type"
          (JValue.str "access")) (SECRET_KEY env) ALGORITHM from rfl]
  unfold TokenManager.verify_token TokenManager.verify_token_body
  rw [hdec]
  simp [htype, hsubP]

/-- C4 (witness): the concrete round trip at issue time 0, verification
time 0, claims `{sub: "u1"}`, default environment. -/
theorem c4_subject_roundtrip_witness :
    dictGet [("sub", JValue.str "u1")] "sub" = some (JValue.str "u1")
    ∧ (0 : Int) < 0 + ACCESS_TOKEN_EXPIRE_MINUTES ⟨none, none, none⟩ * 60
    ∧ ∃ payload,
        TokenManager.verify_token ⟨none, none, none⟩
            (TokenManager.create_access_token ⟨none, none, none⟩
              [("sub", JValue.str "u1")] none 0).1 "access" 0
          = Except.ok payload
        ∧ dictGet payload "sub" = some (JValue.str "u1") := by
  refine ⟨by decide, by decide, ?_⟩
  exact c4_subject_roundtrip ⟨none, none, none⟩ [("sub", JValue.str "u1")] 0 0
    (by decide) (by decide)

/-- C6 (counterexample): `create_token_response` merges the additional
claims over `{"sub": user_id}` with `dict.update`, so an additional claim
named `sub` overrides the subject argument: with subject "42" and extra
claims `{"sub": "99"}` the issued access token decodes to a payload whose
`sub` is "99", not "42". -/
theorem c6_create_token_response_counterexample :
    jwtDecode (create_token_response ⟨none, none, none⟩ "42"
        (some [("sub", JValue.str "99")]) 0).access_token
        (SECRET_KEY ⟨none, none, none⟩) [ALGORITHM] 0
      = DecodeResult.ok
          [("sub", JValue.str "99"), ("exp", JValue.int 1800), ("type", JValue.str "access")]
    ∧ dictGet [("sub", JValue.str "99"), ("exp", JValue.int 1800), ("type", JValue.str "access")]
        "sub" ≠ some (JValue.str "42") := by
  refine ⟨by decide, by decide⟩

/-- C6 (amended): for every subject `s`, `create_token_response` returns a
mapping with exactly the fields access_token, refresh_token and
token_type = "bearer"; both tokens decode under the configured secret, the
access token carries `type = "access"`, the refresh token `type =
"refresh"`; provided the supplied extra claims do not themselves bind
`sub` (an extra `sub` overrides the subject argument), both tokens carry
`sub = s`, and every extra claim other than `exp` and `type` (which token
creation overwrites) is merged into both payloads.  The configured
lifetimes are assumed positive so that decoding at issuance time is before
expiry. -/
theorem c6_create_token_response_amended (env : AuthEnv) (s : String)
    (extra : Option Dict) (now : Int)
    (hns : ∀ d, extra = some d → dictGet d "sub" = none)
    (hnd : ∀ d, extra = some d → (d.map (fun kv => kv.1)).Nodup)
    (hacc : 0 < ACCESS_TOKEN_EXPIRE_MINUTES env)
    (href : 0 < REFRESH_TOKEN_EXPIRE_DAYS env) :
    (create_token_response env s extra now).token_type = "bearer"
    ∧ (∃ p, jwtDecode (create_token_response env s extra now).access_token
          (SECRET_KEY env) [ALGORITHM] now = DecodeResult.ok p
        ∧ dictGet p "type" = some (JValue.str "access")
        ∧ dictGet p "sub" = some (JValue.str s)
        ∧ ∀ d k v, extra = some d → k ≠ "exp" → k ≠ "type" →
            dictGet d k = some v → dictGet p k = some v)
    ∧ (∃ q, jwtDecode (create_token_response env s extra now).refresh_token
          (SECRET_KEY env) [ALGORITHM] now = DecodeResult.ok q
        ∧ dictGet q "type" = some (JValue.str "refresh")
        ∧ dictGet q "sub" = some (JValue.str s)
        ∧ ∀ d k v, extra = some d → k ≠ "exp" → k ≠ "type" →
            dictGet d k = some v → dictGet q k = some v) := by
  have key : ∀ C : Dict,
      (create_token_response env s extra now).access_token
        = jwtEncode (dictSet (dictSet C "exp"
            (JValue.int (now + ACCESS_TOKEN_EXPIRE_MINUTES env * 60))) "type"
            (JValue.str "access")) (SECRET_KEY env) ALGORITHM →
      (create_token_response env s extra now).refresh_token
        = jwtEncode (dictSet (dictSet C "exp"
            (JValue.int (now + REFRESH_TOKEN_EXPIRE_DAYS env * 86400))) "type"
            (JValue.str "refresh")) (SECRET_KEY env) ALGORITHM →
      dictGet C "sub" = some (JValue.str s) →
      (∀ d k v, extra = some d → k ≠ "exp" → k ≠ "type" → dictGet d k = some v →
          dictGet C k = some v) →
      (create_token_response env s extra now).token_type = "bearer"
      ∧ (∃ p, jwtDecode (create_token_response env s extra now).access_token
            (SECRET_KEY env) [ALGORITHM] now = DecodeResult.ok p
          ∧ dictGet p "type" = some (JValue.str "access")
          ∧ dictGet p "sub" = some (JValue.str s)
          ∧ ∀ d k v, extra = some d → k ≠ "exp" → k ≠ "type" →
              dictGet d k = some v → dictGet p k = some v)
      ∧ (∃ q, jwtDecode (create_token_response env s extra now).refresh_token
            (SECRET_KEY env) [ALGORITHM] now = DecodeResult.ok q
          ∧ dictGet q "type" = some (JValue.str "refresh")
          ∧ dictGet q "sub" = some (JValue.str s)
          ∧ ∀ d k v, extra = some d → k ≠ "exp" → k ≠ "type" →
              dictGet d k = some v → dictGet q k = some v) := by
    intro C hA hR hCsub hCmerge
    obtain ⟨hdecA, htyA, hotherA⟩ := signed_payload_props C (SECRET_KEY env) "access"
        (now + ACCESS_TOKEN_EXPIRE_MINUTES env * 60) now (by omega)
    obtain ⟨hdecR, htyR, hotherR⟩ := signed_payload_props C (SECRET_KEY env) "refresh"
        (now + REFRESH_TOKEN_EXPIRE_DAYS env * 86400) now (by omega)
    refine ⟨rfl, ⟨_, ?_, htyA, ?_, ?_⟩, ⟨_, ?_, htyR, ?_, ?_⟩⟩
    · rw [hA]; exact hdecA
    · rw [hotherA "sub" (by decide) (by decide)]; exact hCsub
    · intro d k v hd hk1 hk2 hv
      rw [hotherA k hk1 hk2]; exact hCmerge d k v hd hk1 hk2 hv
    · rw [hR]; exact hdecR
    · rw [hotherR "sub" (by decide) (by decide)]; exact hCsub
    · intro d k v hd hk1 hk2 hv
      rw [hotherR k hk1 hk2]; exact hCmerge d k v hd hk1 hk2 hv
  cases extra with
  | none =>
    exact key [("sub", JValue.str s)] rfl rfl (by simp [dictGet])
      (fun d k v hd => by cases hd)
  | some d =>
    cases d with
    | nil =>
      refine key [("sub", JValue.str s)] rfl rfl (by simp [dictGet]) ?_
      intro d' k v hd' hk1 hk2 hv
      cases hd'
      simp [dictGet] at hv
    | cons kv0 tl =>
      have hget : dictGet (kv0 :: tl) "sub" = none := hns _ rfl
      have hnod : ((kv0 :: tl).map (fun kv => kv.1)).Nodup := hnd _ rfl
      have hCsub : dictGet (dictUpdate [("sub", JValue.str s)] (kv0 :: tl)) "sub"
          = some (JValue.str s) := by
        rw [dictGet_dictUpdate_not_mem _ _ _ ((dictGet_eq_none_iff _ _).mp hget)]
        simp [dictGet]
      refine key (dictUpdate [("sub", JValue.str s)] (kv0 :: tl)) rfl rfl hCsub ?_
      intro d' k v hd' hk1 hk2 hv
      cases hd'
      exact dictGet_dictUpdate_mem _ _ _ _ hnod hv

/-- C6 (witness): the concrete scenario of the spec, subject "42" with no
extra claims, at issuance and verification time 0 in the default
environment. -/
theorem c6_create_token_response_witness :
    (create_token_response ⟨none, none, none⟩ "42" none 0).token_type = "bearer"
    ∧ (∃ p, jwtDecode (create_token_response ⟨none, none, none⟩ "42" none 0).access_token
          (SECRET_KEY ⟨none, none, none⟩) [ALGORITHM] 0 = DecodeResult.ok p
        ∧ dictGet p "type" = some (JValue.str "access")
        ∧ dictGet p "sub" = some (JValue.str "42")
        ∧ ∀ d k v, (none : Option Dict) = some d → k ≠ "exp" → k ≠ "type" →
            dictGet d k = some v → dictGet p k = some v)
    ∧ (∃ q, jwtDecode (create_token_response ⟨none, none, none⟩ "42" none 0).refresh_token
          (SECRET_KEY ⟨none, none, none⟩) [ALGORITHM] 0 = DecodeResult.ok q
        ∧ dictGet q "type" = some (JValue.str "refresh")
        ∧ dictGet q "sub" = some (JValue.str "42")
        ∧ ∀ d k v, (none : Option Dict) = some d → k ≠ "exp" → k ≠ "type" →
            dictGet d k = some v → dictGet q k = some v) :=
  c6_create_token_response_amended ⟨none, none, none⟩ "42" none 0
    (fun _ h => nomatch h) (fun _ h => nomatch h) (by decide) (by decide)

/-- A stored user record of the mock in-memory store of main.py (the dict
values of `users_db`). -/
structure UserRec where
  id : Nat
  email : String
  full_name : String
  hashed_password : PHash
  created_at : Int
  deriving DecidableEq, Repr

/-- The module-level mutable state of main.py: `users_db` (a dict from
user id to user record, as an ordered association list) and
`user_id_counter`. -/
structure DB where
  users : List (Nat × UserRec)
  counter : Nat
  deriving DecidableEq, Repr

/-- Python `users_db[user_id] = u`: replace the entry in place or append a
new one.  In-place mutation of a looked-up record (`user["email"] = ...`)
is the same operation. -/
def setUser : List (Nat × UserRec) → Nat → UserRec → List (Nat × UserRec)
  | [], uid, u => [(uid, u)]
  | (k, v) :: rest, uid, u =>
    if k = uid then (uid, u) :: rest else (k, v) :: setUser rest uid u

/-- The request body of `POST /register` (`UserCreate`). -/
structure UserCreate where
  email : String
  full_name : String
  password : String
  deriving DecidableEq, Repr

/-- The request body of `PUT /users/{user_id}` (`UserUpdate`); `none`
models an omitted optional field. -/
structure UserUpdate where
  full_name : Option String
  email : Option String
  deriving DecidableEq, Repr

/-- main.py lines 203-239, `register`: reject with 400 when any stored
user already has the submitted email; otherwise take `user_id` from the
counter, increment the counter, hash the password (whose 400 failure for
an over-long password propagates after the counter increment), and insert
the new record.  The first component is the store after the call. -/
def Main.register (db : DB) (salt : Nat) (now : Int) (u : UserCreate) :
    DB × Except HttpError UserRec :=
  if db.users.any (fun kv => kv.2.email == u.email) then
    (db, Except.error ⟨400, "Email already registered"⟩)
  else
    let user_id := db.counter
    let db1 : DB := { db with counter := db.counter + 1 }
    match Main.hash_password salt u.password with
    | Except.error e => (db1, Except.error e)
    | Except.ok h =>
      let newUser : UserRec :=
        { id := user_id, email := u.email, full_name := u.full_name,
          hashed_password := h, created_at := now }
      ({ db1 with users := db1.users ++ [(user_id, newUser)] }, Except.ok newUser)

/-- The email block of main.py `update_user` (lines 380-387): when a
truthy (`user_update.email and ...`) email different from the stored one
is submitted, reject with 400 if any stored user carries that email, else
write it to the record; otherwise leave the record alone. -/
def Main.update_email_step (db : DB) (user : UserRec) (upd : UserUpdate) :
    Except HttpError UserRec :=
  match upd.email with
  | some e =>
    if e ≠ "" ∧ e ≠ user.email then
      if db.users.any (fun q => q.2.email == e) then
        Except.error ⟨400, "Email already in use"⟩
      else
        Except.ok { user with email := e }
    else
      Except.ok user
  | none => Except.ok user

/-- The full-name block of main.py `update_user` (lines 389-390): write a
truthy submitted full name to the record. -/
def Main.update_full_name_step (user1 : UserRec) (upd : UserUpdate) : UserRec :=
  match upd.full_name with
  | some fn => if fn ≠ "" then { user1 with full_name := fn } else user1
  | none => user1

/-- main.py lines 352-397, `update_user`: 404 when the target id is not a
key of the store, 403 when the authenticated user's id differs from the
target id; then the email block (whose 400 raise leaves the store
untouched) followed by the full-name block, both writing through to the
stored record (`users_db[user_id]`).  The first component is the store
after the call (unchanged on every error). -/
def Main.update_user (db : DB) (user_id : Nat) (upd : UserUpdate) (current : UserRec) :
    DB × Except HttpError UserRec :=
  match db.users.find? (fun kv => kv.1 == user_id) with
  | none => (db, Except.error ⟨404, "User not found"⟩)
  | some kv =>
    if current.id ≠ user_id then
      (db, Except.error ⟨403, "You can only update your own profile"⟩)
    else
      match Main.update_email_step db kv.2 upd with
      | Except.error err => (db, Except.error err)
      | Except.ok user1 =>
        let user2 := Main.update_full_name_step user1 upd
        ({ db with users := setUser db.users user_id user2 }, Except.ok user2)

/-- main.py lines 406-427, `delete_user`: 404 when the target id is not a
key of the store, 403 when the authenticated user's id differs from the
target id, else remove the entry (`del users_db[user_id]`).  The first
component is the store after the call. -/
def Main.delete_user (db : DB) (user_id : Nat) (current : UserRec) :
    DB × Except HttpError Unit :=
  match db.users.find? (fun kv => kv.1 == user_id) with
  | none => (db, Except.error ⟨404, "User not found"⟩)
  | some _ =>
    if current.id ≠ user_id then
      (db, Except.error ⟨403, "You can only delete your own profile"⟩)
    else
      ({ db with users := db.users.eraseP (fun kv => kv.1 == user_id) }, Except.ok ())

/-- Failure of the `login` endpoint: an `HTTPException`, or an exception
escaping `pwd_context.verify` (main.py's `verify_password` has no
handler). -/
inductive LoginErr where
  | http (e : HttpError)
  | raised (msg : String)
  deriving DecidableEq, Repr

/-- main.py lines 248-272, `login`: find the first stored user whose email
equals the submitted one exactly (case sensitive); reject with 401 when
none exists or the password does not verify; on success issue an access
token with `sub` set to the stored email and a 30-minute lifetime. -/
def Main.login (db : DB) (email password : String) (now : Int) : Except LoginErr Jwt :=
  match db.users.find? (fun kv => kv.2.email == email) with
  | none => Except.error (LoginErr.http ⟨401, "Incorrect email or password"⟩)
  | some kv =>
    match pwd_context_verify password kv.2.hashed_password with
    | Except.error msg => Except.error (LoginErr.raised msg)
    | Except.ok b =>
      if b then
        Except.ok (Main.create_access_token [("sub", JValue.str kv.2.email)]
          (some (Main.ACCESS_TOKEN_EXPIRE_MINUTES * 60)) now).1
      else
        Except.error (LoginErr.http ⟨401, "Incorrect email or password"⟩)

/-- Python `str.lower()` as used on the emails of main.py: lower-case each
character (Python lowercases the full Unicode range; `Char.toLower`
agrees with it on the ASCII characters these comparisons involve). -/
def strLower (s : String) : String := String.mk (s.data.map Char.toLower)

/-- main.py lines 162-191, `get_current_user`, after bearer-token
extraction (a missing or non-Bearer Authorization header fails upstream
with the same 401; the extracted token is the argument here): decode with
the module secret, mapping any `JWTError` to the credentials exception;
reject when the `sub` claim is absent, not a string, or empty (falsy);
then resolve the subject against stored emails case-insensitively
(`u["email"].lower() == email.lower()`, first match in store order) and
401 when no user matches. -/
def Main.get_current_user (db : DB) (token : Jwt) (now : Int) : Except HttpError UserRec :=
  match jwtDecode token Main.SECRET_KEY [Main.ALGORITHM] now with
  | DecodeResult.ok payload =>
    match dictGet payload "sub" with
    | some (JValue.str email) =>
      if email = "" then
        Except.error ⟨401, "Invalid authentication credentials. Please log in again."⟩
      else
        match db.users.find? (fun kv => strLower kv.2.email == strLower email) with
        | some kv => Except.ok kv.2
        | none => Except.error ⟨401, "User not found or credentials invalid."⟩
    | _ => Except.error ⟨401, "Invalid authentication credentials. Please log in again."⟩
  | _ => Except.error ⟨401, "Invalid authentication credentials. Please log in again."⟩

/-- The keys of the store are pairwise distinct (automatic for a Python
dict keyed by user id). -/
@[reducible] def keysDistinct (db : DB) : Prop :=
  (db.users.map (fun kv => kv.1)).Nodup

/-- No two stored users share an email. -/
@[reducible] def emailsDistinct (db : DB) : Prop :=
  (db.users.map (fun kv => kv.2.email)).Nodup

/-- Every stored key is below the id counter (so the counter is fresh). -/
@[reducible] def counterFresh (db : DB) : Prop :=
  ∀ kv ∈ db.users, kv.1 < db.counter

/-- The store invariant maintained by the main.py endpoints. -/
@[reducible] def DBinv (db : DB) : Prop :=
  keysDistinct db ∧ emailsDistinct db ∧ counterFresh db

theorem setUser_cons_self (tl : List (Nat × UserRec)) (k : Nat) (v u : UserRec) :
    setUser ((k, v) :: tl) k u = (k, u) :: tl := by
  simp [setUser]

theorem setUser_cons_ne (tl : List (Nat × UserRec)) (k uid : Nat) (v u : UserRec)
    (h : k ≠ uid) : setUser ((k, v) :: tl) uid u = (k, v) :: setUser tl uid u := by
  simp [setUser, h]

theorem setUser_mem (l : List (Nat × UserRec)) (uid : Nat) (u : UserRec) (q : Nat × UserRec)
    (h : q ∈ setUser l uid u) : q ∈ l ∨ q = (uid, u) := by
  induction l with
  | nil => simp [setUser] at h; right; exact h
  | cons hd tl ih =>
    obtain ⟨k, v⟩ := hd
    by_cases hk : k = uid
    · subst hk
      rw [setUser_cons_self] at h
      rcases List.mem_cons.mp h with h1 | h1
      · right; exact h1
      · left; exact List.mem_cons_of_mem _ h1
    · rw [setUser_cons_ne tl k uid v u hk] at h
      rcases List.mem_cons.mp h with h1 | h1
      · left; rw [h1]; exact List.mem_cons_self _ _
      · rcases ih h1 with h2 | h2
        · left; exact List.mem_cons_of_mem _ h2
        · right; exact h2

theorem setUser_keys_of_mem (l : List (Nat × UserRec)) (uid : Nat) (u : UserRec)
    (h : uid ∈ l.map (fun kv => kv.1)) :
    (setUser l uid u).map (fun kv => kv.1) = l.map (fun kv => kv.1) := by
  induction l with
  | nil => simp at h
  | cons hd tl ih =>
    obtain ⟨k, v⟩ := hd
    by_cases hk : k = uid
    · subst hk
      rw [setUser_cons_self]
      simp
    · simp only [List.map_cons, List.mem_cons] at h
      rcases h with h | h
      · exact absurd h.symm hk
      · rw [setUser_cons_ne tl k uid v u hk]
        simp only [List.map_cons, ih h]

theorem setUser_email_mem (l : List (Nat × UserRec)) (uid : Nat) (u : UserRec) (x : String)
    (h : x ∈ (setUser l uid u).map (fun kv => kv.2.email)) :
    x ∈ l.map (fun kv => kv.2.email) ∨ x = u.email := by
  induction l with
  | nil => simp [setUser] at h; right; exact h
  | cons hd tl ih =>
    obtain ⟨k, v⟩ := hd
    by_cases hk : k = uid
    · subst hk
      rw [setUser_cons_self] at h
      simp only [List.map_cons, List.mem_cons] at h
      rcases h with h | h
      · right; exact h
      · left
        simp only [List.map_cons, List.mem_cons]
        right; exact h
    · rw [setUser_cons_ne tl k uid v u hk] at h
      simp only [List.map_cons, List.mem_cons] at h
      rcases h with h | h
      · left
        simp only [List.map_cons, List.mem_cons]
        left; exact h
      · rcases ih h with h2 | h2
        · left
          simp only [List.map_cons, List.mem_cons]
          right; exact h2
        · right; exact h2

theorem setUser_emails_nodup (l : List (Nat × UserRec)) (uid : Nat) (u2 : UserRec)
    (hkeys : (l.map (fun kv => kv.1)).Nodup)
    (hem : (l.map (fun kv => kv.2.email)).Nodup)
    (hcase : (∃ kv ∈ l, kv.1 = uid ∧ kv.2.email = u2.email)
      ∨ ∀ q ∈ l, q.2.email ≠ u2.email) :
    ((setUser l uid u2).map (fun kv => kv.2.email)).Nodup := by
  induction l with
  | nil => simp [setUser]
  | cons hd tl ih =>
    obtain ⟨k, v⟩ := hd
    simp only [List.map_cons, List.nodup_cons] at hkeys hem
    by_cases hk : k = uid
    · subst hk
      rw [setUser_cons_self]
      simp only [List.map_cons, List.nodup_cons]
      refine ⟨?_, hem.2⟩
      rcases hcase with ⟨kv, hmem, hkv, hemail⟩ | hall
      · have hhd : kv = (k, v) := by
          rcases List.mem_cons.mp hmem with h | h
          · exact h
          · exact absurd (by rw [← hkv]; exact List.mem_map_of_mem (fun kv => kv.1) h) hkeys.1
        rw [← hemail, hhd]
        exact hem.1
      · intro hmem2
        rcases List.mem_map.mp hmem2 with ⟨q, hq, he⟩
        exact hall q (List.mem_cons_of_mem _ hq) he
    · rw [setUser_cons_ne tl k uid v u2 hk]
      simp only [List.map_cons, List.nodup_cons]
      have hcase' : (∃ kv ∈ tl, kv.1 = uid ∧ kv.2.email = u2.email)
          ∨ ∀ q ∈ tl, q.2.email ≠ u2.email := by
        rcases hcase with ⟨kv, hmem, hkv, hemail⟩ | hall
        · left
          refine ⟨kv, ?_, hkv, hemail⟩
          rcases List.mem_cons.mp hmem with h | h
          · exact absurd (by rw [h] at hkv; exact hkv) hk
          · exact h
        · right; exact fun q hq => hall q (List.mem_cons_of_mem _ hq)
      refine ⟨?_, ih hkeys.2 hem.2 hcase'⟩
      intro hmem2
      rcases setUser_email_mem tl uid u2 v.email hmem2 with h2 | h2
      · exact hem.1 h2
      · rcases hcase with ⟨kv, hmem, hkv, hemail⟩ | hall
        · rcases List.mem_cons.mp hmem with hh | hh
          · exact absurd (by rw [hh] at hkv; exact hkv) hk
          · refine hem.1 ?_
            rw [h2, ← hemail]
            exact List.mem_map_of_mem (fun kv => kv.2.email) hh
        · exact hall (k, v) (List.mem_cons_self _ _) h2

theorem register_dup_email (db : DB) (salt : Nat) (now : Int) (u : UserCreate)
    (h : ∃ kv ∈ db.users, kv.2.email = u.email) :
    Main.register db salt now u = (db, Except.error ⟨400, "Email already registered"⟩) := by
  have hb : db.users.any (fun kv => kv.2.email == u.email) = true := by
    rcases h with ⟨kv, hm, he⟩
    exact List.any_eq_true.mpr ⟨kv, hm, by simp [he]⟩
  unfold Main.register
  rw [if_pos hb]

theorem register_DBinv (db : DB) (salt : Nat) (now : Int) (u : UserCreate)
    (hinv : DBinv db) : DBinv (Main.register db salt now u).1 := by
  obtain ⟨hkeys, hem, hcf⟩ := hinv
  unfold Main.register
  by_cases hb : db.users.any (fun kv => kv.2.email == u.email) = true
  · rw [if_pos hb]
    exact ⟨hkeys, hem, hcf⟩
  · rw [if_neg hb]
    have hall : ∀ kv ∈ db.users, kv.2.email ≠ u.email := by
      intro kv hm he
      exact hb (List.any_eq_true.mpr ⟨kv, hm, by simp [he]⟩)
    cases hh : Main.hash_password salt u.password with
    | error e =>
      simp only [hh]
      refine ⟨hkeys, hem, ?_⟩
      intro kv hm
      exact Nat.lt_succ_of_lt (hcf kv hm)
    | ok hp =>
      simp only [hh]
      refine ⟨?_, ?_, ?_⟩
      · simp only [keysDistinct, List.map_append, List.map_cons, List.map_nil]
        rw [List.nodup_append]
        refine ⟨hkeys, List.nodup_singleton _, ?_⟩
        intro a ha hb2
        simp only [List.mem_singleton] at hb2
        rcases List.mem_map.mp ha with ⟨kv, hm, he⟩
        have := hcf kv hm
        omega
      · simp only [emailsDistinct, List.map_append, List.map_cons, List.map_nil]
        rw [List.nodup_append]
        refine ⟨hem, List.nodup_singleton _, ?_⟩
        intro a ha hb2
        simp only [List.mem_singleton] at hb2
        rcases List.mem_map.mp ha with ⟨kv, hm, he⟩
        exact hall kv hm (by rw [he, hb2])
      · intro kv hm
        rcases List.mem_append.mp hm with hm | hm
        · exact Nat.lt_succ_of_lt (hcf kv hm)
        · simp only [List.mem_singleton] at hm
          rw [hm]
          exact Nat.lt_succ_self _

theorem update_full_name_step_email (user1 : UserRec) (upd : UserUpdate) :
    (Main.update_full_name_step user1 upd).email = user1.email := by
  cases hfn : upd.full_name with
  | none => simp [Main.update_full_name_step, hfn]
  | some fn =>
    by_cases hfe : fn ≠ ""
    · simp [Main.update_full_name_step, hfn, if_pos hfe]
    · simp [Main.update_full_name_step, hfn, if_neg hfe]

theorem update_email_step_ok (db : DB) (user : UserRec) (upd : UserUpdate) (user1 : UserRec)
    (h : Main.update_email_step db user upd = Except.ok user1) :
    user1.email = user.email ∨ ∀ q ∈ db.users, q.2.email ≠ user1.email := by
  unfold Main.update_email_step at h
  cases hee : upd.email with
  | none =>
    simp only [hee] at h
    injection h with h1
    left; rw [← h1]
  | some e =>
    simp only [hee] at h
    by_cases hcond : e ≠ "" ∧ e ≠ user.email
    · rw [if_pos hcond] at h
      by_cases hdup : db.users.any (fun q => q.2.email == e) = true
      · rw [if_pos hdup] at h
        exact absurd h (by simp)
      · rw [if_neg hdup] at h
        injection h with h1
        right
        intro q hq heq
        apply hdup
        refine List.any_eq_true.mpr ⟨q, hq, ?_⟩
        rw [← h1] at heq
        simpa using heq
    · rw [if_neg hcond] at h
      injection h with h1
      left; rw [← h1]

theorem update_user_cases (db : DB) (uid : Nat) (upd : UserUpdate) (cur : UserRec) :
    ((Main.update_user db uid upd cur).1 = db
      ∧ ∃ e, (Main.update_user db uid upd cur).2 = Except.error e)
    ∨ ∃ u2 : UserRec,
        Main.update_user db uid upd cur
          = ({ db with users := setUser db.users uid u2 }, Except.ok u2)
        ∧ ((∃ q ∈ db.users, q.1 = uid ∧ q.2.email = u2.email)
            ∨ ∀ q ∈ db.users, q.2.email ≠ u2.email)
        ∧ cur.id = uid := by
  cases hf : db.users.find? (fun kv => kv.1 == uid) with
  | none =>
    left
    refine ⟨by simp [Main.update_user, hf], ⟨404, "User not found"⟩,
      by simp [Main.update_user, hf]⟩
  | some kv =>
    by_cases hid : cur.id ≠ uid
    · left
      refine ⟨by simp [Main.update_user, hf, hid], ⟨403, "You can only update your own profile"⟩,
        by simp [Main.update_user, hf, hid]⟩
    · have hid' : cur.id = uid := not_not.mp hid
      cases hstep : Main.update_email_step db kv.2 upd with
      | error err =>
        left
        refine ⟨by simp [Main.update_user, hf, if_neg hid, hstep], err,
          by simp [Main.update_user, hf, if_neg hid, hstep]⟩
      | ok user1 =>
        right
        refine ⟨Main.update_full_name_step user1 upd, ?_, ?_, hid'⟩
        · simp [Main.update_user, hf, if_neg hid, hstep]
        · rcases update_email_step_ok db kv.2 upd user1 hstep with hsame | hfresh
          · left
            refine ⟨kv, List.mem_of_find?_eq_some hf, ?_, ?_⟩
            · have h := List.find?_some hf
              simpa using h
            · rw [update_full_name_step_email, hsame]
          · right
            intro q hq
            rw [update_full_name_step_email]
            exact hfresh q hq

theorem delete_user_cases (db : DB) (uid : Nat) (cur : UserRec) :
    ((Main.delete_user db uid cur).1 = db
      ∧ ∃ e, (Main.delete_user db uid cur).2 = Except.error e)
    ∨ (Main.delete_user db uid cur
        = ({ db with users := db.users.eraseP (fun kv => kv.1 == uid) }, Except.ok ())
      ∧ cur.id = uid) := by
  cases hf : db.users.find? (fun kv => kv.1 == uid) with
  | none =>
    left
    refine ⟨by simp [Main.delete_user, hf], ⟨404, "User not found"⟩,
      by simp [Main.delete_user, hf]⟩
  | some kv =>
    by_cases hid : cur.id ≠ uid
    · left
      refine ⟨by simp [Main.delete_user, hf, hid], ⟨403, "You can only delete your own profile"⟩,
        by simp [Main.delete_user, hf, hid]⟩
    · right
      refine ⟨?_, not_not.mp hid⟩
      simp [Main.delete_user, hf, if_neg hid]

/-- C8: under the store invariant, no two stored users share an email:
`register` answers 400 (store unchanged) when the submitted email equals a
stored user's email, `update_user` answers 400 (store unchanged) when a
new email — one differing from the target's stored email — is already
carried by a stored user, and the stores produced by `register`,
`update_user` and `delete_user` all keep every pair of stored emails
distinct. -/
theorem c8_email_uniqueness_invariant (db : DB) (hinv : DBinv db) :
    (∀ salt now u, (∃ kv ∈ db.users, kv.2.email = u.email) →
        Main.register db salt now u = (db, Except.error ⟨400, "Email already registered"⟩))
    ∧ (∀ uid upd cur kv e, db.users.find? (fun q => q.1 == uid) = some kv →
        cur.id = uid → upd.email = some e → e ≠ "" → e ≠ kv.2.email →
        (∃ q ∈ db.users, q.2.email = e) →
        Main.update_user db uid upd cur = (db, Except.error ⟨400, "Email already in use"⟩))
    ∧ (∀ salt now u, emailsDistinct (Main.register db salt now u).1)
    ∧ (∀ uid upd cur, emailsDistinct (Main.update_user db uid upd cur).1)
    ∧ (∀ uid cur, emailsDistinct (Main.delete_user db uid cur).1) := by
  obtain ⟨hkeys, hem, hcf⟩ := hinv
  refine ⟨?_, ?_, ?_, ?_, ?_⟩
  · intro salt now u hdup
    exact register_dup_email db salt now u hdup
  · intro uid upd cur kv e hf hcur he he1 he2 hdup
    have hb : db.users.any (fun q => q.2.email == e) = true := by
      rcases hdup with ⟨q, hq, hqe⟩
      exact List.any_eq_true.mpr ⟨q, hq, by simp [hqe]⟩
    have hstep : Main.update_email_step db kv.2 upd
        = Except.error ⟨400, "Email already in use"⟩ := by
      simp only [Main.update_email_step, he]
      rw [if_pos ⟨he1, he2⟩, if_pos hb]
    have hnid : ¬ cur.id ≠ uid := by simp [hcur]
    simp [Main.update_user, hf, if_neg hnid, hstep]
  · intro salt now u
    exact (register_DBinv db salt now u ⟨hkeys, hem, hcf⟩).2.1
  · intro uid upd cur
    rcases update_user_cases db uid upd cur with ⟨h1, _⟩ | ⟨u2, heq, hcase, _⟩
    · rw [h1]; exact hem
    · rw [heq]
      exact setUser_emails_nodup db.users uid u2 hkeys hem
        (by rcases hcase with ⟨q, hq, hq1, hq2⟩ | hall
            · exact Or.inl ⟨q, hq, hq1, hq2⟩
            · exact Or.inr hall)
  · intro uid cur
    rcases delete_user_cases db uid cur with ⟨h1, _⟩ | ⟨heq, _⟩
    · rw [h1]; exact hem
    · rw [heq]
      exact hem.sublist (List.Sublist.map _ (List.eraseP_sublist _))

/-- Two sample stored users and a store holding them, for the concrete
witnesses below. -/
def aliceRec : UserRec :=
  ⟨1, "a@b.com", "Alice", PHash.valid 0 "password123", 0⟩

def bobRec : UserRec :=
  ⟨2, "b@b.com", "Bob", PHash.valid 1 "password456", 0⟩

def sampleDB : DB := ⟨[(1, aliceRec), (2, bobRec)], 3⟩

/-- C8 (witness): registering a third user with Alice's email against the
concrete two-user store is refused with 400 and the store is unchanged. -/
theorem c8_email_uniqueness_invariant_witness :
    DBinv sampleDB
    ∧ Main.register sampleDB 2 0 ⟨"a@b.com", "Eve", "password789"⟩
      = (sampleDB, Except.error ⟨400, "Email already registered"⟩) := by
  refine ⟨⟨by decide, by decide, by decide⟩, ?_⟩
  exact (c8_email_uniqueness_invariant sampleDB ⟨by decide, by decide, by decide⟩).1
    2 0 ⟨"a@b.com", "Eve", "password789"⟩ ⟨(1, aliceRec), by decide, by decide⟩

/-- C9: `update_user` and `delete_user` answer 404 (store unchanged) when
the target id is absent, 403 (store unchanged) when the authenticated
user's id differs from the target id, succeed only when the two ids
agree, and leave the store unchanged in every failing case. -/
theorem c9_owner_only_update_delete (db : DB) (uid : Nat) (upd : UserUpdate) (cur : UserRec) :
    (db.users.find? (fun kv => kv.1 == uid) = none →
        Main.update_user db uid upd cur = (db, Except.error ⟨404, "User not found"⟩)
        ∧ Main.delete_user db uid cur = (db, Except.error ⟨404, "User not found"⟩))
    ∧ (∀ kv, db.users.find? (fun kv => kv.1 == uid) = some kv → cur.id ≠ uid →
        Main.update_user db uid upd cur
          = (db, Except.error ⟨403, "You can only update your own profile"⟩)
        ∧ Main.delete_user db uid cur
          = (db, Except.error ⟨403, "You can only delete your own profile"⟩))
    ∧ (∀ r, (Main.update_user db uid upd cur).2 = Except.ok r → cur.id = uid)
    ∧ ((Main.delete_user db uid cur).2 = Except.ok () → cur.id = uid)
    ∧ (∀ e, (Main.update_user db uid upd cur).2 = Except.error e →
        (Main.update_user db uid upd cur).1 = db)
    ∧ (∀ e, (Main.delete_user db uid cur).2 = Except.error e →
        (Main.delete_user db uid cur).1 = db) := by
  refine ⟨?_, ?_, ?_, ?_, ?_, ?_⟩
  · intro hf
    constructor
    · simp [Main.update_user, hf]
    · simp [Main.delete_user, hf]
  · intro kv hf hid
    constructor
    · simp [Main.update_user, hf, hid]
    · simp [Main.delete_user, hf, hid]
  · intro r hok
    rcases update_user_cases db uid upd cur with ⟨_, e, herr⟩ | ⟨u2, heq, _, hid⟩
    · simp [herr] at hok
    · exact hid
  · intro hok
    rcases delete_user_cases db uid cur with ⟨_, e, herr⟩ | ⟨heq, hid⟩
    · simp [herr] at hok
    · exact hid
  · intro e herr2
    rcases update_user_cases db uid upd cur with ⟨h1, _⟩ | ⟨u2, heq, _, _⟩
    · exact h1
    · rw [heq] at herr2
      simp at herr2
  · intro e herr2
    rcases delete_user_cases db uid cur with ⟨h1, _⟩ | ⟨heq, _⟩
    · exact h1
    · rw [heq] at herr2
      simp at herr2

/-- C9 (witness): Bob, authenticated, updating or deleting Alice's record
in the concrete store is refused with 403 and the store is unchanged. -/
theorem c9_owner_only_update_delete_witness :
    Main.update_user sampleDB 1 ⟨none, none⟩ bobRec
      = (sampleDB, Except.error ⟨403, "You can only update your own profile"⟩)
    ∧ Main.delete_user sampleDB 1 bobRec
      = (sampleDB, Except.error ⟨403, "You can only delete your own profile"⟩) :=
  (c9_owner_only_update_delete sampleDB 1 ⟨none, none⟩ bobRec).2.1
    (1, aliceRec) (by decide) (by decide)

/-- A second stored user whose email differs from Alice's only in letter
case (registrable, since `register` checks exact equality only). -/
def eveRec : UserRec :=
  ⟨2, "A@b.com", "Eve", PHash.valid 1 "password456", 0⟩

def caseDB : DB := ⟨[(1, aliceRec), (2, eveRec)], 3⟩

/-- C10 (counterexample): with Alice ("a@b.com") stored, the casing
variant "A@b.com" differs from her stored email only in letter case, yet
a login attempt with that casing does not fail — when another stored user
(Eve) holds exactly that casing, that login succeeds with Eve's
password. -/
theorem c10_email_case_asymmetry_counterexample :
    strLower "A@b.com" = strLower "a@b.com"
    ∧ "A@b.com" ≠ "a@b.com"
    ∧ (1, aliceRec) ∈ caseDB.users
    ∧ aliceRec.email = "a@b.com"
    ∧ isOkE (Main.login caseDB "A@b.com" "password456" 0) = true := by
  refine ⟨by decide, by decide, by decide, by decide, by decide⟩

/-- C10 (amended): email matching is asymmetric — `get_current_user`
resolves the token subject against stored emails case-insensitively, so
for every stored user a bearer token whose `sub` agrees with the stored
email up to letter case authenticates (as some user with that
lowercased email, the first in store order); `login` matches emails
exactly, so a login attempt with a casing that no stored user carries
verbatim fails for every password.  (If another user's stored email is
exactly that casing, the login addresses that other user instead of
failing.) -/
theorem c10_email_case_asymmetry_amended (db : DB) (kv : Nat × UserRec) (e : String)
    (now : Int) (hmem : kv ∈ db.users) (hcase : strLower kv.2.email = strLower e)
    (hne : e ≠ "") :
    (∃ u : UserRec,
        Main.get_current_user db
          (Main.create_access_token [("sub", JValue.str e)] none now).1 now
          = Except.ok u
      ∧ strLower u.email = strLower e)
    ∧ ((∀ q ∈ db.users, q.2.email ≠ e) → ∀ password,
        Main.login db e password now
          = Except.error (LoginErr.http ⟨401, "Incorrect email or password"⟩)) := by
  constructor
  · cases hq : db.users.find? (fun kv => strLower kv.2.email == strLower e) with
    | none =>
      exfalso
      rw [List.find?_eq_none] at hq
      exact hq kv hmem (by simp [hcase])
    | some q =>
      have hqprop : strLower q.2.email = strLower e := by
        have h := List.find?_some hq
        simpa using h
      refine ⟨q.2, ?_, hqprop⟩
      have htok : (Main.create_access_token [("sub", JValue.str e)] none now).1
          = jwtEncode [("sub", JValue.str e), ("exp", JValue.int (now + 15 * 60))]
              Main.SECRET_KEY Main.ALGORITHM := by
        simp [Main.create_access_token, dictUpdate, dictSet]
      have hget : dictGet [("sub", JValue.str e), ("exp", JValue.int (now + 15 * 60))] "exp"
          = some (JValue.int (now + 15 * 60)) := by simp [dictGet]
      have hdec : jwtDecode (jwtEncode [("sub", JValue.str e),
            ("exp", JValue.int (now + 15 * 60))] Main.SECRET_KEY Main.ALGORITHM)
          Main.SECRET_KEY [Main.ALGORITHM] now
          = DecodeResult.ok [("sub", JValue.str e), ("exp", JValue.int (now + 15 * 60))] := by
        unfold jwtDecode jwtEncode
        rw [if_pos ⟨rfl, by simp⟩]
        simp only [hget]
        rw [if_neg (by omega)]
      have hsub : dictGet [("sub", JValue.str e), ("exp", JValue.int (now + 15 * 60))] "sub"
          = some (JValue.str e) := by simp [dictGet]
      rw [htok]
      simp only [Main.get_current_user, hdec, hsub, if_neg hne, hq]
  · intro hall password
    have hfind : db.users.find? (fun kv => kv.2.email == e) = none := by
      rw [List.find?_eq_none]
      intro x hx
      simp [hall x hx]
    simp [Main.login, hfind]

/-- C10 (witness): against the concrete store holding Alice ("a@b.com"),
the casing "A@B.com" authenticates via a bearer token while no stored
user carries it verbatim, so the login branch applies for every
password. -/
theorem c10_email_case_asymmetry_witness :
    (∃ u : UserRec,
        Main.get_current_user sampleDB
          (Main.create_access_token [("sub", JValue.str "A@B.com")] none 0).1 0
          = Except.ok u
      ∧ strLower u.email = strLower "A@B.com")
    ∧ ((∀ q ∈ sampleDB.users, q.2.email ≠ "A@B.com") → ∀ password,
        Main.login sampleDB "A@B.com" password 0
          = Except.error (LoginErr.http ⟨401, "Incorrect email or password"⟩)) :=
  c10_email_case_asymmetry_amended sampleDB (1, aliceRec) "A@B.com" 0
    (by decide) (by decide) (by decide)
